import Mathlib

/-!
gosop, `cmd/decrypt.go`: the session-key token codec and the command `Decrypt`,
as a shallow embedding of the Go source.

* Go text (`string`, `[]byte` holding text) is a `List Char`: the sequence of
  code points of the text.  Key bytes are natural numbers below 256.
* The standard-library functions the file calls (`strings.TrimSpace`,
  `strings.Split`, `strconv.ParseUint`, `strconv.FormatUint`,
  `hex.DecodeString`, `hex.EncodeToString`, `strings.ToUpper`) are written out
  after the Go standard library.
* A Go function that may return a value, return an error or stop with a
  run-time panic has the result type `Outcome`.
* The collaborators of `Decrypt` (package `utils`, the gopenpgp builder and
  reader, the files) are the fields of `Env`; the calls `Decrypt` makes are
  recorded, in order, as a list of `Event`s.
-/

namespace Gosop

/-- Go text: the code points of a `string`. -/
abbrev Str := List Char

/-! ## Errors -/

/-- Modelled from the spec: the error values of package `cmd` (`Err69`, `Err23`,
`Err67`, `Err99`) are declared outside `decrypt.go`.  The spec makes them
distinguishable error categories, and `Err99` wraps a cause with a call-site
tag.  The other constructors are the errors of the standard library and of the
collaborators. -/
inductive Error where
  /-- No secret provided: `Err69`. -/
  | Err69
  /-- Verification keys and verification output do not pair up: `Err23`. -/
  | Err23
  /-- A key could not be unlocked: `Err67`. -/
  | Err67
  /-- Generic failure with the tag of the operation: `Err99(source, err)`. -/
  | Err99 (source : Str) (cause : Error)
  /-- Failure of `strconv.ParseUint` with `strconv.ErrSyntax`. -/
  | ErrSyntax (s : Str)
  /-- Failure of `strconv.ParseUint` with `strconv.ErrRange`. -/
  | ErrRange (s : Str)
  /-- The error `errors.New("unsupported session key algorithm")`. -/
  | unsupportedAlgorithm
  /-- Failure of `hex.DecodeString` with `hex.InvalidByteError`. -/
  | InvalidByteError (c : Char)
  /-- Failure of `hex.DecodeString` with `hex.ErrLength`. -/
  | ErrLength
  /-- Failure of `SessionKey.GetCipherFunc`: the key has no algorithm. -/
  | noCipherFunction
  /-- Failure of `SessionKey.GetCipherFunc`: the algorithm name is unknown. -/
  | unsupportedCipherFunction (algo : Str)
  /-- Any other error handed back by a collaborator. -/
  | other (msg : Str)
  deriving DecidableEq, Repr

/-- Result of running a Go function: it returns a value, returns an error, or
stops with a run-time panic. -/
inductive Outcome (α : Type) where
  | ok (v : α)
  | err (e : Error)
  | panicked
  deriving DecidableEq, Repr

/-- The function `decErr` of `decrypt.go`. -/
def decErr (err : Error) : Error := Error.Err99 "decrypt".toList err

/-! ## Standard library -/

/-- The predicate `unicode.IsSpace`. -/
def isSpace (c : Char) : Bool :=
  let n := c.toNat
  n == 0x09 || n == 0x0A || n == 0x0B || n == 0x0C || n == 0x0D || n == 0x20 ||
  n == 0x85 || n == 0xA0 || n == 0x1680 || (0x2000 ≤ n && n ≤ 0x200A) ||
  n == 0x2028 || n == 0x2029 || n == 0x202F || n == 0x205F || n == 0x3000

/-- The function `strings.TrimSpace`: leading and trailing white space removed. -/
def TrimSpace (s : Str) : Str :=
  ((s.dropWhile isSpace).reverse.dropWhile isSpace).reverse

/-- The function `strings.Split(s, sep)` for a separator of one character: the
pieces of `s` between the occurrences of `sep`; always at least one piece. -/
def Split : Str → Char → List Str
  | [], _ => [[]]
  | c :: cs, sep =>
    if c = sep then [] :: Split cs sep
    else
      match Split cs sep with
      | [] => [[c]]
      | p :: ps => (c :: p) :: ps

/-- Loop of `strconv.ParseUint` in base 10: `s0` is the whole text (for the error),
`maxVal` the largest value of the bit size, `n` the value read so far. -/
def parseUintLoop (s0 : Str) (maxVal : Nat) : Str → Nat → Except Error Nat
  | [], n => .ok n
  | c :: cs, n =>
    if 48 ≤ c.toNat ∧ c.toNat ≤ 57 then
      let d := c.toNat - 48
      -- cutoff: the smallest number such that cutoff*10 > maxUint64
      if n ≥ (2 ^ 64 - 1) / 10 + 1 then .error (.ErrRange s0)
      else
        let n1 := (n * 10 + d) % 2 ^ 64
        if n1 < n * 10 ∨ n1 > maxVal then .error (.ErrRange s0)
        else parseUintLoop s0 maxVal cs n1
    else .error (.ErrSyntax s0)

/-- The function `strconv.ParseUint(s, 10, bitSize)`. -/
def ParseUint (s : Str) (bitSize : Nat) : Except Error Nat :=
  if s = [] then .error (.ErrSyntax s)
  else parseUintLoop s (2 ^ bitSize - 1) s 0

/-- The function `strconv.FormatUint(n, 10)`. -/
def FormatUint (n : Nat) : Str := Nat.toDigits 10 n

/-- Table `reverseHexTable` of `encoding/hex`: the value of a hexadecimal digit. -/
def fromHexChar (c : Char) : Option Nat :=
  let n := c.toNat
  if 48 ≤ n ∧ n ≤ 57 then some (n - 48)
  else if 97 ≤ n ∧ n ≤ 102 then some (n - 97 + 10)
  else if 65 ≤ n ∧ n ≤ 70 then some (n - 65 + 10)
  else none

/-- The function `hex.DecodeString`: pairs of digits from the left; the first bad
character is reported before a bad length. -/
def DecodeString : Str → Except Error (List Nat)
  | [] => .ok []
  | [p] =>
    match fromHexChar p with
    | none => .error (.InvalidByteError p)
    | some _ => .error .ErrLength
  | p :: q :: rest =>
    match fromHexChar p with
    | none => .error (.InvalidByteError p)
    | some a =>
      match fromHexChar q with
      | none => .error (.InvalidByteError q)
      | some b =>
        match DecodeString rest with
        | .error e => .error e
        | .ok bs => .ok ((a * 16 + b) % 256 :: bs)

/-- Table `hextable` of `encoding/hex`: the digit of a value below 16. -/
def hextable (d : Nat) : Char :=
  if d < 10 then Char.ofNat (48 + d) else Char.ofNat (97 + (d - 10))

/-- The function `hex.EncodeToString`: two lower-case digits per byte. -/
def EncodeToString : List Nat → Str
  | [] => []
  | b :: bs => hextable (b / 16 % 16) :: hextable (b % 16) :: EncodeToString bs

/-- The function `strings.ToUpper` on ASCII text (all that `EncodeToString` yields). -/
def ToUpper (s : Str) : Str := s.map Char.toUpper

/-! ## Session keys -/

/-- Cipher identifiers of `packet.CipherFunction` (a `uint8`). -/
def Cipher3DES : Nat := 2
/-- Identifier of CAST5. -/
def CipherCAST5 : Nat := 3
/-- Identifier of AES-128. -/
def CipherAES128 : Nat := 7
/-- Identifier of AES-192. -/
def CipherAES192 : Nat := 8
/-- Identifier of AES-256. -/
def CipherAES256 : Nat := 9

/-- Algorithm names of gopenpgp `constants`. -/
def ThreeDES : Str := "3des".toList
/-- Second name of 3DES in gopenpgp. -/
def TripleDES : Str := "tripledes".toList
/-- Name of CAST5. -/
def CAST5 : Str := "cast5".toList
/-- Name of AES-128. -/
def AES128 : Str := "aes128".toList
/-- Name of AES-192. -/
def AES192 : Str := "aes192".toList
/-- Name of AES-256. -/
def AES256 : Str := "aes256".toList

/-- The type `crypto.SessionKey`: the key bytes and the name of the algorithm. -/
structure SessionKey where
  Key : List Nat
  Algo : Str
  deriving DecidableEq, Repr

/-- The table `symKeyAlgos` of `decrypt.go`: cipher identifier to algorithm name. -/
def symKeyAlgos (cf : Nat) : Option Str :=
  if cf = Cipher3DES then some ThreeDES
  else if cf = CipherCAST5 then some CAST5
  else if cf = CipherAES128 then some AES128
  else if cf = CipherAES192 then some AES192
  else if cf = CipherAES256 then some AES256
  else none

/-- The function `crypto.NewSessionKeyFromToken`. -/
def NewSessionKeyFromToken (token : List Nat) (algo : Str) : SessionKey :=
  { Key := token, Algo := algo }

/-- The method `SessionKey.GetCipherFunc` of gopenpgp: the identifier of the
algorithm name, an error when the key has no or an unknown name. -/
def GetCipherFunc (sk : SessionKey) : Except Error Nat :=
  if sk.Algo = [] then .error .noCipherFunction
  else if sk.Algo = ThreeDES then .ok Cipher3DES
  else if sk.Algo = TripleDES then .ok Cipher3DES
  else if sk.Algo = CAST5 then .ok CipherCAST5
  else if sk.Algo = AES128 then .ok CipherAES128
  else if sk.Algo = AES192 then .ok CipherAES192
  else if sk.Algo = AES256 then .ok CipherAES256
  else .error (.unsupportedCipherFunction sk.Algo)

/-- The function `parseSessionKey`: reads the session-key reference, splits the
trimmed text at the colons, reads part 0 as an 8-bit decimal identifier, looks it
up in `symKeyAlgos`, and decodes part 1 as hexadecimal.  Indexing the parts
outside the split result is a run-time panic. -/
def parseSessionKey (ReadFileOrEnv : Str → Except Error Str) (sessionKey : Str) :
    Outcome SessionKey :=
  match ReadFileOrEnv sessionKey with
  | .error err => .err err
  | .ok formattedSessionKey =>
    let parts := Split (TrimSpace formattedSessionKey) ':'
    match parts[0]? with
    | none => .panicked
    | some part0 =>
      match ParseUint part0 8 with
      | .error err => .err err
      | .ok skAlgo =>
        match symKeyAlgos (skAlgo % 256) with
        | none => .err .unsupportedAlgorithm
        | some skAlgoName =>
          match parts[1]? with
          | none => .panicked
          | some part1 =>
            match DecodeString part1 with
            | .error err => .err err
            | .ok skBytes => .ok (NewSessionKeyFromToken skBytes skAlgoName)

/-- The text that `writeSessionKeyToFile` builds: the decimal identifier, a
colon, the key in upper-case hexadecimal. -/
def formattedSessionKey (cipherFunc : Nat) (key : List Nat) : Str :=
  FormatUint cipherFunc ++ ":".toList ++ ToUpper (EncodeToString key)

/-! ## The command `Decrypt` -/

/-- The type `crypto.KeyRing`, as far as `Decrypt` looks at it: its entities. -/
structure KeyRing where
  entities : List Str
  deriving DecidableEq, Repr

/-- The method `KeyRing.CountEntities` of gopenpgp on a `*crypto.KeyRing`; the nil
key ring has no entities. -/
def CountEntities : Option KeyRing → Nat
  | none => 0
  | some keyRing => keyRing.entities.length

/-- The flags of the command line that `Decrypt` reads (package-level variables
of `cmd`). `verifyWith` is `verifyWith.Value()`: `none` is the nil slice. -/
structure Config where
  password : Str
  sessionKey : Str
  keyPassword : Str
  verifyWith : Option (List Str)
  verificationsOut : Str
  notBefore : Str
  notAfter : Str
  sessionKeyOut : Str

/-- What `utils.CollectKeysPassword` hands back: `(privKeyRing, failUnlock, err)`. -/
structure Collected where
  privKeyRing : Option KeyRing
  failUnlock : Bool
  err : Option Error

/-- The collaborators of `Decrypt`: what each of them answers.  An `Option Error`
is a Go `error` (`none` is nil). -/
structure Env where
  CollectFilesFromCliSlice : List Str → List Str
  CollectKeys : List Str → Except Error (Option KeyRing)
  ParseDates : Str → Str → Except Error (Int × Int)
  ReadFileOrEnv : Str → Except Error Str
  ReadSanitizedPassword : Str → Except Error Str
  CollectKeysPassword : Option Str → List Str → Collected
  /-- Whether `builder.New()` yields a decryptor (its error is dropped). -/
  New : Bool
  DecryptingReader : Option Error
  Copy : Option Error
  /-- The pointer `ptReader.SessionKey()`. -/
  SessionKey : Option SessionKey
  OpenOutFile : Str → Option Error
  Write : Str → Option Error
  Close : Option Error
  VerifySignature : Option Error
  writeVerificationToFileFromResult : Option Error

/-- The three sources of the decryption secret; a call of `utils.ReadFileOrEnv`
reads the reference of one of the first two. -/
inductive Source where
  | sessionKey
  | password
  | privateKeys
  deriving DecidableEq, Repr

/-- The calls `Decrypt` makes, with their arguments. -/
inductive Event where
  /-- The builtin `println` (standard error). -/
  | println (msg : Str)
  | CollectFilesFromCliSlice (names : List Str)
  /-- Reads the verification key files. -/
  | CollectKeys (files : List Str)
  | VerificationKeys (pubKeyRing : Option KeyRing)
  | ParseDates (notBefore notAfter : Str)
  | ReadFileOrEnv (source : Source) (name : Str)
  | SessionKey (sk : SessionKey)
  | Password (pw : Str)
  | ReadSanitizedPassword (name : Str)
  /-- Reads the key files and unlocks the private keys. -/
  | CollectKeysPassword (pw : Option Str) (files : List Str)
  | DecryptionKeys (privKeyRing : Option KeyRing)
  | ClearPrivateParams (privKeyRing : Option KeyRing)
  | RetrieveSessionKey
  | New
  /-- Opens the decrypting reader on `os.Stdin`. -/
  | DecryptingReader
  /-- The call `io.Copy(os.Stdout, ptReader)`. -/
  | Copy
  | OpenOutFile (name : Str)
  | Write (text : Str)
  | Close
  | VerifySignature
  | ConstrainToTimeRange (timeFrom timeTo : Int)
  | writeVerificationToFileFromResult
  deriving DecidableEq, Repr

/-- The function `writeSessionKeyToFile`; `sk` is a pointer, and `GetCipherFunc`
on the nil pointer is a run-time panic.  The deferred `Close` runs at every
return after the file is open. -/
def writeSessionKeyToFile (env : Env) (cfg : Config) (sk : Option SessionKey) :
    List Event × Outcome Unit :=
  match env.OpenOutFile cfg.sessionKeyOut with
  | some err => ([.OpenOutFile cfg.sessionKeyOut], .err err)
  | none =>
    match sk with
    | none => ([.OpenOutFile cfg.sessionKeyOut, .Close], .panicked)
    | some sk =>
      match GetCipherFunc sk with
      | .error err => ([.OpenOutFile cfg.sessionKeyOut, .Close], .err (decErr err))
      | .ok cipherFunc =>
        let text := formattedSessionKey cipherFunc sk.Key
        match env.Write text with
        | some err =>
          ([.OpenOutFile cfg.sessionKeyOut, .Write text, .Close], .err (decErr err))
        | none =>
          match env.Close with
          | some err =>
            ([.OpenOutFile cfg.sessionKeyOut, .Write text, .Close, .Close], .err (decErr err))
          | none =>
            ([.OpenOutFile cfg.sessionKeyOut, .Write text, .Close, .Close], .ok ())

/-- Lines 43-51 of `Decrypt`: the verification keys are collected when the option
is given. -/
def collectVerificationKeys (env : Env) (cfg : Config) :
    List Event × Except Error (Option KeyRing) :=
  match cfg.verifyWith with
  | none => ([], .ok none)
  | some names =>
    let verifyKeys := env.CollectFilesFromCliSlice names
    match env.CollectKeys verifyKeys with
    | .error err => ([.CollectFilesFromCliSlice names, .CollectKeys verifyKeys], .error err)
    | .ok pubKeyRing =>
      ([.CollectFilesFromCliSlice names, .CollectKeys verifyKeys,
        .VerificationKeys pubKeyRing], .ok pubKeyRing)

/-- Lines 62-93 of `Decrypt`: the secret handed to the builder.  The result is
either the value `Decrypt` returns at once, or the deferred calls to run when
`Decrypt` returns. -/
def resolveSecret (env : Env) (cfg : Config) (keyFilenames : List Str) :
    List Event × Except (Outcome Unit) (List Event) :=
  if cfg.sessionKey ≠ [] then
    match parseSessionKey env.ReadFileOrEnv cfg.sessionKey with
    | .err err => ([.ReadFileOrEnv .sessionKey cfg.sessionKey], .error (.err (decErr err)))
    | .panicked => ([.ReadFileOrEnv .sessionKey cfg.sessionKey], .error .panicked)
    | .ok sk => ([.ReadFileOrEnv .sessionKey cfg.sessionKey, .SessionKey sk], .ok [])
  else if cfg.password ≠ [] then
    match env.ReadFileOrEnv cfg.password with
    | .error err => ([.ReadFileOrEnv .password cfg.password], .error (.err (decErr err)))
    | .ok pw =>
      ([.ReadFileOrEnv .password cfg.password, .Password (TrimSpace pw)], .ok [])
  else
    let readPw : List Event × Except Error (Option Str) :=
      if cfg.keyPassword ≠ [] then
        match env.ReadSanitizedPassword cfg.keyPassword with
        | .error err => ([.ReadSanitizedPassword cfg.keyPassword], .error err)
        | .ok pw => ([.ReadSanitizedPassword cfg.keyPassword], .ok (some pw))
      else ([], .ok none)
    match readPw with
    | (t, .error err) => (t, .error (.err (decErr err)))
    | (t, .ok pw) =>
      let collected := env.CollectKeysPassword pw keyFilenames
      if collected.failUnlock then
        (t ++ [.CollectKeysPassword pw keyFilenames], .error (.err .Err67))
      else
        match collected.err with
        | some err => (t ++ [.CollectKeysPassword pw keyFilenames], .error (.err (decErr err)))
        | none =>
          (t ++ [.CollectKeysPassword pw keyFilenames, .DecryptionKeys collected.privKeyRing],
            .ok [.ClearPrivateParams collected.privKeyRing])

/-- Lines 95-127 of `Decrypt`: the decryptor is built, standard input is
decrypted to standard output, the session key and the verification result are
written when asked for.  A call on the nil decryptor is a run-time panic. -/
def decryptStream (env : Env) (cfg : Config) (timeFrom timeTo : Int) :
    List Event × Outcome Unit :=
  let t0 : List Event := if cfg.sessionKeyOut ≠ [] then [.RetrieveSessionKey, .New] else [.New]
  if env.New = false then (t0, .panicked)
  else
    match env.DecryptingReader with
    | some err => (t0 ++ [.DecryptingReader], .err (decErr err))
    | none =>
      match env.Copy with
      | some err => (t0 ++ [.DecryptingReader, .Copy], .err (decErr err))
      | none =>
        let written : List Event × Outcome Unit :=
          if cfg.sessionKeyOut ≠ [] then writeSessionKeyToFile env cfg env.SessionKey
          else ([], .ok ())
        match written with
        | (t1, .err err) => (t0 ++ [.DecryptingReader, .Copy] ++ t1, .err (decErr err))
        | (t1, .panicked) => (t0 ++ [.DecryptingReader, .Copy] ++ t1, .panicked)
        | (t1, .ok _) =>
          if cfg.verificationsOut ≠ [] then
            match env.VerifySignature with
            | some err =>
              (t0 ++ [.DecryptingReader, .Copy] ++ t1 ++ [.VerifySignature], .err (decErr err))
            | none =>
              match env.writeVerificationToFileFromResult with
              | some err =>
                (t0 ++ [.DecryptingReader, .Copy] ++ t1 ++ [.VerifySignature,
                  .ConstrainToTimeRange timeFrom timeTo, .writeVerificationToFileFromResult],
                  .err (decErr err))
              | none =>
                (t0 ++ [.DecryptingReader, .Copy] ++ t1 ++ [.VerifySignature,
                  .ConstrainToTimeRange timeFrom timeTo, .writeVerificationToFileFromResult],
                  .ok ())
          else (t0 ++ [.DecryptingReader, .Copy] ++ t1, .ok ())

/-- The function `Decrypt`: the calls it makes, in order, and what it returns
(`.ok ()` is the nil error).  The constructors `crypto.PGP()` and
`pgp.Decryption()` and the getters `ptReader.SessionKey()` and `Time.Unix()` take
nothing from outside and are not recorded as calls. -/
def Decrypt (env : Env) (cfg : Config) (keyFilenames : List Str) :
    List Event × Outcome Unit :=
  if keyFilenames.length = 0 ∧ cfg.password = [] ∧ cfg.sessionKey = [] then
    ([.println "Please provide decryption keys, session key, or passphrase".toList],
      .err .Err69)
  else
    match collectVerificationKeys env cfg with
    | (t1, .error err) => (t1, .err (decErr err))
    | (t1, .ok pubKeyRing) =>
      if (cfg.verificationsOut = [] ∧ CountEntities pubKeyRing ≠ 0) ∨
          (cfg.verificationsOut ≠ [] ∧ CountEntities pubKeyRing = 0) then
        (t1, .err .Err23)
      else
        match env.ParseDates cfg.notBefore cfg.notAfter with
        | .error err => (t1 ++ [.ParseDates cfg.notBefore cfg.notAfter], .err (decErr err))
        | .ok (timeFrom, timeTo) =>
          match resolveSecret env cfg keyFilenames with
          | (t2, .error r) => (t1 ++ [.ParseDates cfg.notBefore cfg.notAfter] ++ t2, r)
          | (t2, .ok deferred) =>
            let run := decryptStream env cfg timeFrom timeTo
            (t1 ++ [.ParseDates cfg.notBefore cfg.notAfter] ++ t2 ++ run.1 ++ deferred, run.2)

/-- Whether a call reads standard input. -/
def Event.readsStdin : Event → Bool
  | .DecryptingReader => true
  | .Copy => true
  | _ => false

/-- Whether a call writes standard output. -/
def Event.writesStdout : Event → Bool
  | .Copy => true
  | _ => false

/-- Whether a call hands a secret to the builder. -/
def Event.isSecret : Event → Bool
  | .SessionKey _ => true
  | .Password _ => true
  | .DecryptionKeys _ => true
  | _ => false

/-- The secret source a call reads, unlocks, hands over or scrubs, if any. -/
def Event.secretSource : Event → Option Source
  | .ReadFileOrEnv source _ => some source
  | .SessionKey _ => some .sessionKey
  | .Password _ => some .password
  | .ReadSanitizedPassword _ => some .privateKeys
  | .CollectKeysPassword _ _ => some .privateKeys
  | .DecryptionKeys _ => some .privateKeys
  | .ClearPrivateParams _ => some .privateKeys
  | _ => none

/-- The calls of lines 95-127: the builder is finished, the streams and the
output files are used. -/
def Event.isStream : Event → Bool
  | .RetrieveSessionKey => true
  | .New => true
  | .DecryptingReader => true
  | .Copy => true
  | .OpenOutFile _ => true
  | .Write _ => true
  | .Close => true
  | .VerifySignature => true
  | .ConstrainToTimeRange _ _ => true
  | .writeVerificationToFileFromResult => true
  | _ => false

/-- The calls of lines 43-51: the verification keys are collected. -/
def Event.isVerificationSetup : Event → Bool
  | .CollectFilesFromCliSlice _ => true
  | .CollectKeys _ => true
  | .VerificationKeys _ => true
  | _ => false

/-- The source `Decrypt` takes the secret from: the first one that is given. -/
def chosenSource (cfg : Config) : Source :=
  if cfg.sessionKey ≠ [] then .sessionKey
  else if cfg.password ≠ [] then .password
  else .privateKeys

/-- The pairing check of `Decrypt` (lines 52-53) fails. -/
def pairingMismatch (cfg : Config) (pubKeyRing : Option KeyRing) : Prop :=
  (cfg.verificationsOut = [] ∧ CountEntities pubKeyRing ≠ 0) ∨
    (cfg.verificationsOut ≠ [] ∧ CountEntities pubKeyRing = 0)

instance (cfg : Config) (pubKeyRing : Option KeyRing) :
    Decidable (pairingMismatch cfg pubKeyRing) := by
  unfold pairingMismatch; infer_instance

/-- A collaborator set in which every call succeeds: one verification key per
file, no unlock failure, the session key read back is AES-256. -/
def envOk : Env where
  CollectFilesFromCliSlice := fun names => names
  CollectKeys := fun files => .ok (some ⟨files⟩)
  ParseDates := fun _ _ => .ok (0, 1)
  ReadFileOrEnv := fun _ => .ok "9:AB".toList
  ReadSanitizedPassword := fun _ => .ok "pw".toList
  CollectKeysPassword := fun _ files => ⟨some ⟨files⟩, false, none⟩
  New := true
  DecryptingReader := none
  Copy := none
  SessionKey := some ⟨[0xAB], AES256⟩
  OpenOutFile := fun _ => none
  Write := fun _ => none
  Close := none
  VerifySignature := none
  writeVerificationToFileFromResult := none

/-- Flags with nothing set. -/
def cfgEmpty : Config where
  password := []
  sessionKey := []
  keyPassword := []
  verifyWith := none
  verificationsOut := []
  notBefore := []
  notAfter := []
  sessionKeyOut := []

/-- Flags of a run on key file arguments with `--verify-with v` and nothing else. -/
def cfgVerifyWith : Config := { cfgEmpty with verifyWith := some ["v".toList] }

/-- Flags of a run with `--verify-with v --verifications-out out`. -/
def cfgVerifyBoth : Config :=
  { cfgEmpty with verifyWith := some ["v".toList], verificationsOut := "out".toList }

/-- The collaborators of `envOk`, but the verification key files hold no key. -/
def envNoKeys : Env := { envOk with CollectKeys := fun _ => .ok (some ⟨[]⟩) }

/-- The collaborators of `envOk`, but collecting the verification keys fails. -/
def envBadKeys : Env := { envOk with CollectKeys := fun _ => .error (.other "bad key".toList) }

/-- The collaborators of `envOk`, but the second key file does not unlock: the key
ring holds the first key, the flag is set, and an error comes with it. -/
def envLocked : Env :=
  { envOk with
    CollectKeysPassword := fun _ _ =>
      ⟨some ⟨["k1".toList]⟩, true, some (.other "wrong passphrase".toList)⟩ }

/-- The collaborators of `envOk`, but the key collection hands back an error
together with the key ring of the first key. -/
def envFailed : Env :=
  { envOk with
    CollectKeysPassword := fun _ _ =>
      ⟨some ⟨["k1".toList]⟩, false, some (.other "unreadable key file".toList)⟩ }

/-! ## Words of the claims -/

/-- The five algorithm names in the table `symKeyAlgos`. -/
def supportedNames : List Str := [ThreeDES, CAST5, AES128, AES192, AES256]

/-- A decimal unsigned integer: one or more digits `0`..`9`. -/
def isDecimal (s : Str) : Prop := s ≠ [] ∧ ∀ c ∈ s, 48 ≤ c.toNat ∧ c.toNat ≤ 57

/-- The number a decimal text denotes. -/
def decimalValue (s : Str) : Nat := s.foldl (fun n c => n * 10 + (c.toNat - 48)) 0

/-- A hexadecimal digit, in either letter case. -/
def isHexDigit (c : Char) : Prop :=
  (48 ≤ c.toNat ∧ c.toNat ≤ 57) ∨ (97 ≤ c.toNat ∧ c.toNat ≤ 102) ∨ (65 ≤ c.toNat ∧ c.toNat ≤ 70)

/-- Valid hexadecimal text: hexadecimal digits only, an even number of them. -/
def validHex (s : Str) : Prop := (∀ c ∈ s, isHexDigit c) ∧ s.length % 2 = 0

/-- The errors of `hex.DecodeString`. -/
def isHexError : Error → Prop
  | .InvalidByteError _ => True
  | .ErrLength => True
  | _ => False

instance (s : Str) : Decidable (isDecimal s) := by
  unfold isDecimal; infer_instance

instance (c : Char) : Decidable (isHexDigit c) := by
  unfold isHexDigit; infer_instance

instance (s : Str) : Decidable (validHex s) := by
  unfold validHex; infer_instance

/-! ## Lemmas on the standard library -/

theorem dropWhile_eq_self_of_all_false {α : Type} (p : α → Bool) (s : List α)
    (h : ∀ c ∈ s, p c = false) : s.dropWhile p = s := by
  cases s with
  | nil => rfl
  | cons a t => simp [List.dropWhile, h a (List.mem_cons_self a t)]

theorem TrimSpace_eq_self (s : Str) (h : ∀ c ∈ s, isSpace c = false) : TrimSpace s = s := by
  unfold TrimSpace
  rw [dropWhile_eq_self_of_all_false isSpace s h,
    dropWhile_eq_self_of_all_false isSpace s.reverse (fun c hc => h c (List.mem_reverse.mp hc)),
    List.reverse_reverse]

theorem Split_ne_nil (s : Str) (sep : Char) : Split s sep ≠ [] := by
  cases s with
  | nil => simp [Split]
  | cons c cs =>
    unfold Split
    split
    · simp
    · split <;> simp

theorem Split_eq_singleton (s : Str) (sep : Char) (h : ∀ c ∈ s, c ≠ sep) :
    Split s sep = [s] := by
  induction s with
  | nil => rfl
  | cons c cs ih =>
    have hc : c ≠ sep := h c (List.mem_cons_self c cs)
    have ih2 := ih (fun x hx => h x (List.mem_cons_of_mem c hx))
    simp [Split, hc, ih2]

theorem Split_append_sep (a b : Str) (sep : Char) (h : ∀ c ∈ a, c ≠ sep) :
    Split (a ++ sep :: b) sep = a :: Split b sep := by
  induction a with
  | nil => simp [Split]
  | cons c cs ih =>
    have hc : c ≠ sep := h c (List.mem_cons_self c cs)
    have ih2 := ih (fun x hx => h x (List.mem_cons_of_mem c hx))
    simp [Split, hc, ih2]

theorem hextable_upper_value :
    ∀ d, d < 16 → fromHexChar (Char.toUpper (hextable d)) = some d := by decide

theorem hextable_upper_plain :
    ∀ d, d < 16 → isSpace (Char.toUpper (hextable d)) = false ∧
      Char.toUpper (hextable d) ≠ ':' := by decide

theorem DecodeString_ToUpper_EncodeToString (key : List Nat) (h : ∀ b ∈ key, b < 256) :
    DecodeString (ToUpper (EncodeToString key)) = .ok key := by
  induction key with
  | nil => rfl
  | cons b bs ih =>
    have hb : b < 256 := h b (List.mem_cons_self b bs)
    have ih2 := ih (fun x hx => h x (List.mem_cons_of_mem b hx))
    have h1 := hextable_upper_value (b / 16 % 16) (Nat.mod_lt _ (by decide))
    have h2 := hextable_upper_value (b % 16) (Nat.mod_lt _ (by decide))
    simp only [ToUpper] at ih2
    simp only [EncodeToString, ToUpper, List.map_cons, DecodeString, h1, h2, ih2]
    congr 2
    omega

theorem ToUpper_EncodeToString_plain (key : List Nat) :
    ∀ c ∈ ToUpper (EncodeToString key), isSpace c = false ∧ c ≠ ':' := by
  induction key with
  | nil => simp [EncodeToString, ToUpper]
  | cons b bs ih =>
    intro c hc
    simp only [EncodeToString, ToUpper, List.map_cons, List.mem_cons] at hc
    rcases hc with hc | hc | hc
    · rw [hc]; exact hextable_upper_plain _ (Nat.mod_lt _ (by decide))
    · rw [hc]; exact hextable_upper_plain _ (Nat.mod_lt _ (by decide))
    · exact ih c hc

theorem parseUintLoop_error (s0 : Str) (maxVal : Nat) (e : Error) :
    ∀ (cs : Str) (n : Nat), parseUintLoop s0 maxVal cs n = .error e →
      e = .ErrSyntax s0 ∨ e = .ErrRange s0 := by
  intro cs
  induction cs with
  | nil => intro n h; simp [parseUintLoop] at h
  | cons c cs ih =>
    intro n h
    unfold parseUintLoop at h
    split at h
    · split at h
      · right; exact (Except.error.inj h).symm
      · dsimp only at h
        split at h
        · right; exact (Except.error.inj h).symm
        · exact ih _ h
    · left; exact (Except.error.inj h).symm

theorem ParseUint_error (s : Str) (bitSize : Nat) (e : Error)
    (h : ParseUint s bitSize = .error e) : e = .ErrSyntax s ∨ e = .ErrRange s := by
  unfold ParseUint at h
  split at h
  · left; exact (Except.error.inj h).symm
  · exact parseUintLoop_error s _ e s 0 h

theorem foldl_decimal_ge (cs : Str) :
    ∀ n : Nat, n ≤ cs.foldl (fun n c => n * 10 + (c.toNat - 48)) n := by
  induction cs with
  | nil => intro n; exact Nat.le_refl n
  | cons c cs ih =>
    intro n
    simp only [List.foldl_cons]
    exact Nat.le_trans (by omega) (ih _)

theorem parseUintLoop_digits (s0 : Str) :
    ∀ (cs : Str) (n : Nat), (∀ c ∈ cs, 48 ≤ c.toNat ∧ c.toNat ≤ 57) → n ≤ 255 →
      parseUintLoop s0 255 cs n =
        if cs.foldl (fun n c => n * 10 + (c.toNat - 48)) n ≤ 255
        then .ok (cs.foldl (fun n c => n * 10 + (c.toNat - 48)) n)
        else .error (.ErrRange s0) := by
  intro cs
  induction cs with
  | nil => intro n _ hn; simp [parseUintLoop, hn]
  | cons c cs ih =>
    intro n hd hn
    have hc := hd c (List.mem_cons_self c cs)
    have hcs : ∀ x ∈ cs, 48 ≤ x.toNat ∧ x.toNat ≤ 57 :=
      fun x hx => hd x (List.mem_cons_of_mem c hx)
    have hmod : (n * 10 + (c.toNat - 48)) % 2 ^ 64 = n * 10 + (c.toNat - 48) :=
      Nat.mod_eq_of_lt (by omega)
    unfold parseUintLoop
    simp only [List.foldl_cons, hc, and_self, if_true, hmod]
    have hcut : ¬ n ≥ (2 ^ 64 - 1) / 10 + 1 := by omega
    rw [if_neg hcut]
    by_cases hbig : n * 10 + (c.toNat - 48) > 255
    · have hge := foldl_decimal_ge cs (n * 10 + (c.toNat - 48))
      rw [if_pos (Or.inr hbig), if_neg (by omega)]
    · rw [if_neg (by omega)]
      exact ih _ hcs (by omega)

theorem parseUintLoop_ok_digits (s0 : Str) (maxVal : Nat) :
    ∀ (cs : Str) (n v : Nat), parseUintLoop s0 maxVal cs n = .ok v →
      ∀ c ∈ cs, 48 ≤ c.toNat ∧ c.toNat ≤ 57 := by
  intro cs
  induction cs with
  | nil => intro n v _ c hc; simp at hc
  | cons c cs ih =>
    intro n v h x hx
    unfold parseUintLoop at h
    split at h
    · rename_i hc
      split at h
      · simp at h
      · dsimp only at h
        split at h
        · simp at h
        · rcases List.mem_cons.mp hx with hx | hx
          · rw [hx]; exact hc
          · exact ih _ v h x hx
    · simp at h

theorem ParseUint_decimal (s : Str) (h : isDecimal s) :
    ParseUint s 8 =
      if decimalValue s ≤ 255 then .ok (decimalValue s) else .error (.ErrRange s) := by
  unfold ParseUint
  rw [if_neg h.1]
  exact parseUintLoop_digits s s 0 h.2 (by omega)

theorem ParseUint_ok (s : Str) (v : Nat) (h : ParseUint s 8 = .ok v) :
    isDecimal s ∧ decimalValue s = v ∧ v ≤ 255 := by
  have hd : isDecimal s := by
    unfold ParseUint at h
    split at h
    · simp at h
    · rename_i hne
      exact ⟨hne, parseUintLoop_ok_digits s _ s 0 v h⟩
  rw [ParseUint_decimal s hd] at h
  split at h
  · rename_i hle
    have := Except.ok.inj h
    exact ⟨hd, this, by omega⟩
  · simp at h

theorem symKeyAlgos_some (cf : Nat) (name : Str) (h : symKeyAlgos cf = some name) :
    cf ∈ [Cipher3DES, CipherCAST5, CipherAES128, CipherAES192, CipherAES256] ∧
      name ∈ supportedNames := by
  unfold symKeyAlgos at h
  simp only [supportedNames, List.mem_cons, List.mem_singleton, List.not_mem_nil, or_false]
  split_ifs at h with h1 h2 h3 h4 h5 <;> simp_all

theorem fromHexChar_eq_none (c : Char) : fromHexChar c = none ↔ ¬ isHexDigit c := by
  unfold fromHexChar isHexDigit
  simp only []
  split_ifs with h1 h2 h3 <;> simp_all

theorem DecodeString_spec (s : Str) :
    match DecodeString s with
    | .ok _ => validHex s
    | .error e => isHexError e ∧ ¬ validHex s := by
  induction s using DecodeString.induct with
  | case1 => simp [DecodeString, validHex]
  | case2 p h =>
    simp [DecodeString, h, isHexError, validHex]
  | case3 p a h =>
    simp [DecodeString, h, isHexError, validHex]
  | case4 p q rest h =>
    have := (fromHexChar_eq_none p).mp h
    simp [DecodeString, h, isHexError, validHex, this]
  | case5 p q rest a ha h =>
    have := (fromHexChar_eq_none q).mp h
    simp [DecodeString, ha, h, isHexError, validHex, this]
  | case6 p q rest a ha b hb e he ih =>
    simp only [he] at ih
    simp only [DecodeString, ha, hb, he]
    refine ⟨ih.1, fun hv => ih.2 ⟨fun c hc => hv.1 c (by simp [hc]), ?_⟩⟩
    have := hv.2
    simp only [List.length_cons] at this
    omega
  | case7 p q rest a ha b hb bs hbs ih =>
    simp only [hbs] at ih
    simp only [DecodeString, ha, hb, hbs]
    have hp : isHexDigit p := by
      by_contra hn
      rw [(fromHexChar_eq_none p).mpr hn] at ha
      exact absurd ha (by simp)
    have hq : isHexDigit q := by
      by_contra hn
      rw [(fromHexChar_eq_none q).mpr hn] at hb
      exact absurd hb (by simp)
    refine ⟨fun c hc => ?_, ?_⟩
    · rcases List.mem_cons.mp hc with hc | hc
      · rw [hc]; exact hp
      · rcases List.mem_cons.mp hc with hc | hc
        · rw [hc]; exact hq
        · exact ih.1 c hc
    · have := ih.2
      simp only [List.length_cons]
      omega

/-! ## The session-key token -/

theorem formattedSessionKey_plain (d : Char) (cf : Nat) (key : List Nat)
    (hd : FormatUint cf = [d]) (hsp : isSpace d = false) :
    ∀ c ∈ formattedSessionKey cf key, isSpace c = false := by
  intro c hc
  simp only [formattedSessionKey, hd, List.mem_append, List.mem_singleton, String.toList] at hc
  rcases hc with (hc | hc) | hc
  · rw [hc]; exact hsp
  · have : c = ':' := by simpa using hc
    rw [this]; decide
  · exact (ToUpper_EncodeToString_plain key c hc).1

theorem parseSessionKey_formattedSessionKey (d : Char) (cf : Nat) (name : Str) (key : List Nat)
    (hd : FormatUint cf = [d]) (hsp : isSpace d = false) (hcolon : d ≠ ':')
    (hparse : ParseUint [d] 8 = .ok cf) (hsym : symKeyAlgos (cf % 256) = some name)
    (hkey : ∀ b ∈ key, b < 256)
    (ReadFileOrEnv : Str → Except Error Str) (sessionKey : Str)
    (hread : ReadFileOrEnv sessionKey = .ok (formattedSessionKey cf key)) :
    parseSessionKey ReadFileOrEnv sessionKey = .ok ⟨key, name⟩ := by
  have htrim := TrimSpace_eq_self _ (formattedSessionKey_plain d cf key hd hsp)
  have hsplit : Split (formattedSessionKey cf key) ':' = [[d], ToUpper (EncodeToString key)] := by
    have h1 : formattedSessionKey cf key = [d] ++ ':' :: ToUpper (EncodeToString key) := by
      simp [formattedSessionKey, hd]
    rw [h1, Split_append_sep [d] _ ':' (by simpa using hcolon),
      Split_eq_singleton _ ':' (fun c hc => (ToUpper_EncodeToString_plain key c hc).2)]
  simp [parseSessionKey, hread, htrim, hsplit, hparse, hsym,
    DecodeString_ToUpper_EncodeToString key hkey, NewSessionKeyFromToken]

theorem writeSessionKeyToFile_text (env : Env) (cfg : Config) (sk : SessionKey) (text : Str)
    (h : Event.Write text ∈ (writeSessionKeyToFile env cfg (some sk)).1) :
    ∃ cf, GetCipherFunc sk = .ok cf ∧ text = formattedSessionKey cf sk.Key := by
  cases h1 : env.OpenOutFile cfg.sessionKeyOut with
  | some e => simp [writeSessionKeyToFile, h1] at h
  | none =>
    cases h2 : GetCipherFunc sk with
    | error e => simp [writeSessionKeyToFile, h1, h2] at h
    | ok cf =>
      refine ⟨cf, rfl, ?_⟩
      cases h3 : env.Write (formattedSessionKey cf sk.Key) with
      | some e => simpa [writeSessionKeyToFile, h1, h2, h3] using h
      | none =>
        cases h4 : env.Close with
        | some e => simpa [writeSessionKeyToFile, h1, h2, h3, h4] using h
        | none => simpa [writeSessionKeyToFile, h1, h2, h3, h4] using h

/-- C1: for a session key whose algorithm is one of the five names of `symKeyAlgos`
and whose key is any sequence of bytes, `parseSessionKey` applied to the text that
`writeSessionKeyToFile` writes gives back the same session key. -/
theorem parseSessionKey_writeSessionKeyToFile (env : Env) (cfg : Config) (sk : SessionKey)
    (text : Str) (ReadFileOrEnv : Str → Except Error Str) (sessionKey : Str)
    (hAlgo : sk.Algo ∈ supportedNames) (hKey : ∀ b ∈ sk.Key, b < 256)
    (hWrite : Event.Write text ∈ (writeSessionKeyToFile env cfg (some sk)).1)
    (hRead : ReadFileOrEnv sessionKey = .ok text) :
    parseSessionKey ReadFileOrEnv sessionKey = .ok sk := by
  obtain ⟨cf, hcf, htext⟩ := writeSessionKeyToFile_text env cfg sk text hWrite
  obtain ⟨key, algo⟩ := sk
  subst htext
  simp only [supportedNames, List.mem_cons, List.mem_singleton, List.not_mem_nil, or_false]
    at hAlgo
  rcases hAlgo with h | h | h | h | h <;> subst h
  · have : cf = 2 := by
      have h2 : GetCipherFunc ⟨key, ThreeDES⟩ = .ok 2 := rfl
      rw [h2] at hcf; exact (Except.ok.inj hcf).symm
    subst this
    exact parseSessionKey_formattedSessionKey '2' 2 ThreeDES key rfl (by decide) (by decide)
      rfl (by decide) hKey ReadFileOrEnv sessionKey hRead
  · have : cf = 3 := by
      have h2 : GetCipherFunc ⟨key, CAST5⟩ = .ok 3 := rfl
      rw [h2] at hcf; exact (Except.ok.inj hcf).symm
    subst this
    exact parseSessionKey_formattedSessionKey '3' 3 CAST5 key rfl (by decide) (by decide)
      rfl (by decide) hKey ReadFileOrEnv sessionKey hRead
  · have : cf = 7 := by
      have h2 : GetCipherFunc ⟨key, AES128⟩ = .ok 7 := rfl
      rw [h2] at hcf; exact (Except.ok.inj hcf).symm
    subst this
    exact parseSessionKey_formattedSessionKey '7' 7 AES128 key rfl (by decide) (by decide)
      rfl (by decide) hKey ReadFileOrEnv sessionKey hRead
  · have : cf = 8 := by
      have h2 : GetCipherFunc ⟨key, AES192⟩ = .ok 8 := rfl
      rw [h2] at hcf; exact (Except.ok.inj hcf).symm
    subst this
    exact parseSessionKey_formattedSessionKey '8' 8 AES192 key rfl (by decide) (by decide)
      rfl (by decide) hKey ReadFileOrEnv sessionKey hRead
  · have : cf = 9 := by
      have h2 : GetCipherFunc ⟨key, AES256⟩ = .ok 9 := rfl
      rw [h2] at hcf; exact (Except.ok.inj hcf).symm
    subst this
    exact parseSessionKey_formattedSessionKey '9' 9 AES256 key rfl (by decide) (by decide)
      rfl (by decide) hKey ReadFileOrEnv sessionKey hRead

/-- Witness of C1: the AES-256 key `AB 0F 00` is written as `9:AB0F00` and read back. -/
theorem parseSessionKey_writeSessionKeyToFile_witness :
    parseSessionKey (fun _ => .ok "9:AB0F00".toList) "file".toList
      = .ok ⟨[0xAB, 0x0F, 0], AES256⟩ :=
  parseSessionKey_writeSessionKeyToFile envOk cfgEmpty ⟨[0xAB, 0x0F, 0], AES256⟩
    "9:AB0F00".toList (fun _ => .ok "9:AB0F00".toList) "file".toList
    (by decide) (by decide) (by decide) rfl

theorem parseSessionKey_of_parts (ReadFileOrEnv : Str → Except Error Str)
    (sessionKey token part0 : Str) (rest : List Str)
    (hRead : ReadFileOrEnv sessionKey = .ok token)
    (hSplit : Split (TrimSpace token) ':' = part0 :: rest) :
    parseSessionKey ReadFileOrEnv sessionKey =
      match ParseUint part0 8 with
      | .error err => .err err
      | .ok skAlgo =>
        match symKeyAlgos (skAlgo % 256) with
        | none => .err .unsupportedAlgorithm
        | some skAlgoName =>
          match rest.head? with
          | none => .panicked
          | some part1 =>
            match DecodeString part1 with
            | .error err => .err err
            | .ok skBytes => .ok ⟨skBytes, skAlgoName⟩ := by
  simp only [parseSessionKey, hRead, hSplit, List.getElem?_cons_zero]
  cases rest <;> simp [NewSessionKeyFromToken]

/-- C2, the claim fails: the text `9:AB:CD` splits into three parts, and
`parseSessionKey` returns the AES-256 session key `AB` for it. -/
theorem parseSessionKey_three_parts :
    Split (TrimSpace "9:AB:CD".toList) ':' = ["9".toList, "AB".toList, "CD".toList] ∧
    parseSessionKey (fun _ => .ok "9:AB:CD".toList) "ref".toList
      = .ok ⟨[0xAB], AES256⟩ := by
  decide

/-- C2, amended: `parseSessionKey` does not check the number of parts.  Two texts
that have at least two parts and the same first two parts get the same result
(the parts after the second are not looked at), and a text of one part that does
not name a supported cipher fails with the error of `ParseUint` or with the
unsupported-algorithm error. -/
theorem parseSessionKey_part_count (ReadFileOrEnv : Str → Except Error Str)
    (sessionKey token : Str) (hRead : ReadFileOrEnv sessionKey = .ok token) :
    (∀ (token2 part0 part1 : Str) (rest rest2 : List Str),
      Split (TrimSpace token) ':' = part0 :: part1 :: rest →
      Split (TrimSpace token2) ':' = part0 :: part1 :: rest2 →
      parseSessionKey ReadFileOrEnv sessionKey
        = parseSessionKey (fun _ => .ok token2) sessionKey) ∧
    (∀ part0 : Str, Split (TrimSpace token) ':' = [part0] →
      (∀ n, ParseUint part0 8 = .ok n → symKeyAlgos (n % 256) = none) →
      parseSessionKey ReadFileOrEnv sessionKey = .err (.ErrSyntax part0) ∨
      parseSessionKey ReadFileOrEnv sessionKey = .err (.ErrRange part0) ∨
      parseSessionKey ReadFileOrEnv sessionKey = .err .unsupportedAlgorithm) := by
  constructor
  · intro token2 part0 part1 rest rest2 h1 h2
    rw [parseSessionKey_of_parts ReadFileOrEnv sessionKey token part0 _ hRead h1,
      parseSessionKey_of_parts (fun _ => .ok token2) sessionKey token2 part0 _ rfl h2]
    simp only [List.head?_cons]
  · intro part0 h1 hun
    rw [parseSessionKey_of_parts ReadFileOrEnv sessionKey token part0 _ hRead h1]
    cases hp : ParseUint part0 8 with
    | error e =>
      rcases ParseUint_error part0 8 e hp with h | h
      · left; rw [h]
      · right; left; rw [h]
    | ok n =>
      right; right
      simp only [hun n hp]

/-- Witness of C2 (amended): `9:AB:CD` is read like `9:AB`. -/
theorem parseSessionKey_part_count_witness :
    parseSessionKey (fun _ => .ok "9:AB:CD".toList) "ref".toList
      = parseSessionKey (fun _ => .ok "9:AB".toList) "ref".toList :=
  (parseSessionKey_part_count (fun _ => .ok "9:AB:CD".toList) "ref".toList
    "9:AB:CD".toList rfl).1 "9:AB".toList "9".toList "AB".toList ["CD".toList] []
    (by decide) (by decide)

/-- C3, the claim fails: `300` is a decimal unsigned integer and no identifier of
`symKeyAlgos`, and `parseSessionKey` returns the range error of `ParseUint` for
`300:AB`, not the unsupported-algorithm error. -/
theorem parseSessionKey_large_id :
    isDecimal "300".toList ∧ decimalValue "300".toList = 300 ∧ symKeyAlgos 300 = none ∧
    parseSessionKey (fun _ => .ok "300:AB".toList) "ref".toList
      = .err (.ErrRange "300".toList) ∧
    parseSessionKey (fun _ => .ok "300:AB".toList) "ref".toList
      ≠ .err .unsupportedAlgorithm := by
  decide

/-- C3, amended: when the first part is a decimal unsigned integer that is no
identifier of `symKeyAlgos`, `parseSessionKey` returns the unsupported-algorithm
error if the integer is at most 255 and the range error of `ParseUint` if it is
larger, whatever follows the first part; and every session key it returns has a
name of the table, the one of the identifier in the first part. -/
theorem parseSessionKey_unsupported (ReadFileOrEnv : Str → Except Error Str)
    (sessionKey token part0 : Str) (rest : List Str)
    (hRead : ReadFileOrEnv sessionKey = .ok token)
    (hSplit : Split (TrimSpace token) ':' = part0 :: rest) :
    (isDecimal part0 → symKeyAlgos (decimalValue part0) = none → decimalValue part0 ≤ 255 →
      parseSessionKey ReadFileOrEnv sessionKey = .err .unsupportedAlgorithm) ∧
    (isDecimal part0 → 255 < decimalValue part0 →
      parseSessionKey ReadFileOrEnv sessionKey = .err (.ErrRange part0)) ∧
    (∀ sk, parseSessionKey ReadFileOrEnv sessionKey = .ok sk →
      sk.Algo ∈ supportedNames ∧ isDecimal part0 ∧
        symKeyAlgos (decimalValue part0) = some sk.Algo) := by
  rw [parseSessionKey_of_parts ReadFileOrEnv sessionKey token part0 rest hRead hSplit]
  refine ⟨fun hd hn hle => ?_, fun hd hgt => ?_, fun sk hsk => ?_⟩
  · rw [ParseUint_decimal part0 hd, if_pos hle]
    simp only [Nat.mod_eq_of_lt (show decimalValue part0 < 256 by omega), hn]
  · rw [ParseUint_decimal part0 hd, if_neg (by omega)]
  · cases hp : ParseUint part0 8 with
    | error e => rw [hp] at hsk; simp at hsk
    | ok n =>
      obtain ⟨hd, hv, hle⟩ := ParseUint_ok part0 n hp
      rw [hp] at hsk
      simp only [Nat.mod_eq_of_lt (show n < 256 by omega)] at hsk
      cases hs : symKeyAlgos n with
      | none => rw [hs] at hsk; simp at hsk
      | some name =>
        rw [hs] at hsk
        cases rest with
        | nil => simp at hsk
        | cons part1 tl =>
          simp only [List.head?_cons] at hsk
          cases hx : DecodeString part1 with
          | error e => rw [hx] at hsk; simp at hsk
          | ok bytes =>
            rw [hx] at hsk
            have hsk2 := Outcome.ok.inj hsk
            subst hsk2
            exact ⟨(symKeyAlgos_some n name hs).2, hd, by rw [hv]; exact hs⟩

/-- Witness of C3 (amended): `5:AB` names no supported cipher. -/
theorem parseSessionKey_unsupported_witness :
    parseSessionKey (fun _ => .ok "5:AB".toList) "ref".toList = .err .unsupportedAlgorithm :=
  (parseSessionKey_unsupported (fun _ => .ok "5:AB".toList) "ref".toList "5:AB".toList
    "5".toList ["AB".toList] rfl (by decide)).1 (by decide) (by decide) (by decide)

/-- C4, the claim fails: the key part `ZZ` of `1:ZZ` is not hexadecimal, and the
error `parseSessionKey` returns is the unsupported-algorithm error, not an error
of `hex.DecodeString`. -/
theorem parseSessionKey_bad_id_bad_hex :
    Split (TrimSpace "1:ZZ".toList) ':' = ["1".toList, "ZZ".toList] ∧
    ¬ validHex "ZZ".toList ∧
    parseSessionKey (fun _ => .ok "1:ZZ".toList) "ref".toList = .err .unsupportedAlgorithm ∧
    ¬ isHexError .unsupportedAlgorithm := by
  refine ⟨by decide, by decide, by decide, ?_⟩
  simp [isHexError]

/-- C4, amended: when the first part is the decimal identifier of a cipher of
`symKeyAlgos`, `parseSessionKey` fails with an error of `hex.DecodeString` for
every second part that is not valid hexadecimal, and returns a session key of that
cipher for every second part that is valid hexadecimal, in either letter case. -/
theorem parseSessionKey_hex (ReadFileOrEnv : Str → Except Error Str)
    (sessionKey token part0 part1 name : Str) (rest : List Str)
    (hRead : ReadFileOrEnv sessionKey = .ok token)
    (hSplit : Split (TrimSpace token) ':' = part0 :: part1 :: rest)
    (hDec : isDecimal part0) (hName : symKeyAlgos (decimalValue part0) = some name) :
    (¬ validHex part1 →
      ∃ e, parseSessionKey ReadFileOrEnv sessionKey = .err e ∧ isHexError e) ∧
    (validHex part1 →
      ∃ key, parseSessionKey ReadFileOrEnv sessionKey = .ok ⟨key, name⟩) := by
  have hid := (symKeyAlgos_some _ name hName).1
  have hle : decimalValue part0 ≤ 255 := by
    simp only [Cipher3DES, CipherCAST5, CipherAES128, CipherAES192, CipherAES256,
      List.mem_cons, List.mem_singleton, List.not_mem_nil, or_false] at hid
    omega
  rw [parseSessionKey_of_parts ReadFileOrEnv sessionKey token part0 _ hRead hSplit,
    ParseUint_decimal part0 hDec, if_pos hle]
  simp only [Nat.mod_eq_of_lt (show decimalValue part0 < 256 by omega), hName,
    List.head?_cons]
  have hspec := DecodeString_spec part1
  cases hx : DecodeString part1 with
  | error e =>
    rw [hx] at hspec
    exact ⟨fun _ => ⟨e, rfl, hspec.1⟩, fun hv => absurd hv hspec.2⟩
  | ok bytes =>
    rw [hx] at hspec
    exact ⟨fun hn => absurd hspec hn, fun _ => ⟨bytes, rfl⟩⟩

/-- Witness of C4 (amended): `9:aB` is accepted, in mixed letter case. -/
theorem parseSessionKey_hex_witness :
    ∃ key, parseSessionKey (fun _ => .ok "9:aB".toList) "ref".toList = .ok ⟨key, AES256⟩ :=
  (parseSessionKey_hex (fun _ => .ok "9:aB".toList) "ref".toList "9:aB".toList
    "9".toList "aB".toList AES256 [] rfl (by decide) (by decide) (by decide)).2 (by decide)

/-- C10, the code fails: the text `9` has one part, `parts[1]` is outside the split
result, and `parseSessionKey` stops with a run-time panic instead of returning. -/
theorem parseSessionKey_no_colon_panics :
    Split (TrimSpace "9".toList) ':' = ["9".toList] ∧
    (Split (TrimSpace "9".toList) ':')[1]? = none ∧
    parseSessionKey (fun _ => .ok "9".toList) "ref".toList = .panicked := by
  decide

/-! ## The stages of `Decrypt` -/

theorem collectVerificationKeys_events (env : Env) (cfg : Config) :
    ∀ e ∈ (collectVerificationKeys env cfg).1, e.isVerificationSetup = true := by
  cases hv : cfg.verifyWith with
  | none => simp [collectVerificationKeys, hv]
  | some names =>
    cases hk : env.CollectKeys (env.CollectFilesFromCliSlice names) <;>
      simp [collectVerificationKeys, hv, hk, Event.isVerificationSetup]

theorem resolveSecret_cases (env : Env) (cfg : Config) (keyFilenames : List Str) :
    (cfg.sessionKey ≠ [] ∧
      ((∃ sk, resolveSecret env cfg keyFilenames =
          ([.ReadFileOrEnv .sessionKey cfg.sessionKey, .SessionKey sk], .ok [])) ∨
        (∃ e, resolveSecret env cfg keyFilenames =
          ([.ReadFileOrEnv .sessionKey cfg.sessionKey], .error (.err (decErr e)))) ∨
        resolveSecret env cfg keyFilenames =
          ([.ReadFileOrEnv .sessionKey cfg.sessionKey], .error .panicked))) ∨
    (cfg.sessionKey = [] ∧ cfg.password ≠ [] ∧
      ((∃ pw, resolveSecret env cfg keyFilenames =
          ([.ReadFileOrEnv .password cfg.password, .Password pw], .ok [])) ∨
        (∃ e, resolveSecret env cfg keyFilenames =
          ([.ReadFileOrEnv .password cfg.password], .error (.err (decErr e)))))) ∨
    (cfg.sessionKey = [] ∧ cfg.password = [] ∧
      ∃ t : List Event, (t = [] ∨ t = [.ReadSanitizedPassword cfg.keyPassword]) ∧
        ((∃ e, resolveSecret env cfg keyFilenames = (t, .error (.err (decErr e)))) ∨
          ∃ pw,
            ((env.CollectKeysPassword pw keyFilenames).failUnlock = true ∧
              resolveSecret env cfg keyFilenames =
                (t ++ [.CollectKeysPassword pw keyFilenames], .error (.err .Err67))) ∨
            ((env.CollectKeysPassword pw keyFilenames).failUnlock = false ∧
              (∃ e, (env.CollectKeysPassword pw keyFilenames).err = some e ∧
                resolveSecret env cfg keyFilenames =
                  (t ++ [.CollectKeysPassword pw keyFilenames],
                    .error (.err (decErr e))))) ∨
            ((env.CollectKeysPassword pw keyFilenames).failUnlock = false ∧
              (env.CollectKeysPassword pw keyFilenames).err = none ∧
              resolveSecret env cfg keyFilenames =
                (t ++ [.CollectKeysPassword pw keyFilenames,
                    .DecryptionKeys (env.CollectKeysPassword pw keyFilenames).privKeyRing],
                  .ok [.ClearPrivateParams
                    (env.CollectKeysPassword pw keyFilenames).privKeyRing])))) := by
  by_cases hsk : cfg.sessionKey = []
  · by_cases hpw : cfg.password = []
    · right; right
      refine ⟨hsk, hpw, ?_⟩
      by_cases hkp : cfg.keyPassword = []
      · refine ⟨[], Or.inl rfl, Or.inr ⟨none, ?_⟩⟩
        cases hf : (env.CollectKeysPassword none keyFilenames).failUnlock with
        | true => left; simp [resolveSecret, hsk, hpw, hkp, hf]
        | false =>
          right
          cases he : (env.CollectKeysPassword none keyFilenames).err with
          | some e => left; simp [resolveSecret, hsk, hpw, hkp, hf, he]
          | none => right; simp [resolveSecret, hsk, hpw, hkp, hf, he]
      · refine ⟨[.ReadSanitizedPassword cfg.keyPassword], Or.inr rfl, ?_⟩
        cases hr : env.ReadSanitizedPassword cfg.keyPassword with
        | error e => left; exact ⟨e, by simp [resolveSecret, hsk, hpw, hkp, hr]⟩
        | ok pw =>
          right
          refine ⟨some pw, ?_⟩
          cases hf : (env.CollectKeysPassword (some pw) keyFilenames).failUnlock with
          | true => left; simp [resolveSecret, hsk, hpw, hkp, hr, hf]
          | false =>
            right
            cases he : (env.CollectKeysPassword (some pw) keyFilenames).err with
            | some e => left; simp [resolveSecret, hsk, hpw, hkp, hr, hf, he]
            | none => right; simp [resolveSecret, hsk, hpw, hkp, hr, hf, he]
    · right; left
      refine ⟨hsk, hpw, ?_⟩
      cases hr : env.ReadFileOrEnv cfg.password with
      | error e => right; exact ⟨e, by simp [resolveSecret, hsk, hpw, hr]⟩
      | ok pw => left; exact ⟨TrimSpace pw, by simp [resolveSecret, hsk, hpw, hr]⟩
  · left
    refine ⟨hsk, ?_⟩
    cases hr : parseSessionKey env.ReadFileOrEnv cfg.sessionKey with
    | ok sk => left; exact ⟨sk, by simp [resolveSecret, hsk, hr]⟩
    | err e => right; left; exact ⟨e, by simp [resolveSecret, hsk, hr]⟩
    | panicked => right; right; simp [resolveSecret, hsk, hr]

@[simp] theorem isStream_RetrieveSessionKey : Event.isStream .RetrieveSessionKey = true := rfl
@[simp] theorem isStream_New : Event.isStream .New = true := rfl
@[simp] theorem isStream_DecryptingReader : Event.isStream .DecryptingReader = true := rfl
@[simp] theorem isStream_Copy : Event.isStream .Copy = true := rfl
@[simp] theorem isStream_OpenOutFile (name : Str) : Event.isStream (.OpenOutFile name) = true :=
  rfl
@[simp] theorem isStream_Write (text : Str) : Event.isStream (.Write text) = true := rfl
@[simp] theorem isStream_Close : Event.isStream .Close = true := rfl
@[simp] theorem isStream_VerifySignature : Event.isStream .VerifySignature = true := rfl
@[simp] theorem isStream_ConstrainToTimeRange (a b : Int) :
    Event.isStream (.ConstrainToTimeRange a b) = true := rfl
@[simp] theorem isStream_writeVerification :
    Event.isStream .writeVerificationToFileFromResult = true := rfl

theorem writeSessionKeyToFile_events (env : Env) (cfg : Config) (sk : Option SessionKey) :
    ∀ e ∈ (writeSessionKeyToFile env cfg sk).1, e.isStream = true := by
  cases h1 : env.OpenOutFile cfg.sessionKeyOut with
  | some e => simp [writeSessionKeyToFile, h1]
  | none =>
    cases sk with
    | none => simp [writeSessionKeyToFile, h1]
    | some sk =>
      cases h2 : GetCipherFunc sk with
      | error e => simp [writeSessionKeyToFile, h1, h2]
      | ok cf =>
        cases h3 : env.Write (formattedSessionKey cf sk.Key) with
        | some e => simp [writeSessionKeyToFile, h1, h2, h3]
        | none =>
          cases h4 : env.Close with
          | some e => simp [writeSessionKeyToFile, h1, h2, h3, h4]
          | none => simp [writeSessionKeyToFile, h1, h2, h3, h4]

theorem decryptStream_spec (env : Env) (cfg : Config) (timeFrom timeTo : Int) :
    (∀ e ∈ (decryptStream env cfg timeFrom timeTo).1, e.isStream = true) ∧
    Event.New ∈ (decryptStream env cfg timeFrom timeTo).1 ∧
    ((decryptStream env cfg timeFrom timeTo).2 = .panicked ∨
      (decryptStream env cfg timeFrom timeTo).2 = .ok () ∨
      ∃ e, (decryptStream env cfg timeFrom timeTo).2 = .err (decErr e)) := by
  cases hn : env.New with
  | false => by_cases hout : cfg.sessionKeyOut = [] <;> simp [decryptStream, hn, hout]
  | true =>
    cases hd : env.DecryptingReader with
    | some e =>
      by_cases hout : cfg.sessionKeyOut = [] <;>
        simp [decryptStream, hn, hout, hd]
    | none =>
      cases hc : env.Copy with
      | some e =>
        by_cases hout : cfg.sessionKeyOut = [] <;>
          simp [decryptStream, hn, hout, hd, hc]
      | none =>
        by_cases hout : cfg.sessionKeyOut = []
        · by_cases hv : cfg.verificationsOut = []
          · simp [decryptStream, hn, hout, hd, hc, hv]
          · cases hs : env.VerifySignature with
            | some e => simp [decryptStream, hn, hout, hd, hc, hv, hs]
            | none =>
              cases hwv : env.writeVerificationToFileFromResult <;>
                simp [decryptStream, hn, hout, hd, hc, hv, hs, hwv]
        · have hw := writeSessionKeyToFile_events env cfg env.SessionKey
          rcases hwr : writeSessionKeyToFile env cfg env.SessionKey with ⟨tw, rw⟩
          rw [hwr] at hw
          simp only at hw
          cases rw with
          | err e => simp [decryptStream, hn, hout, hd, hc, hwr, hw]; aesop
          | panicked => simp [decryptStream, hn, hout, hd, hc, hwr, hw]; aesop
          | ok u =>
            by_cases hv : cfg.verificationsOut = []
            · simp [decryptStream, hn, hout, hd, hc, hwr, hv, hw]; aesop
            · cases hs : env.VerifySignature with
              | some e =>
                simp [decryptStream, hn, hout, hd, hc, hwr, hv, hs, hw]; aesop
              | none =>
                cases hwv : env.writeVerificationToFileFromResult <;>
                  (simp [decryptStream, hn, hout, hd, hc, hwr, hv, hs, hwv, hw]
                   aesop)

theorem Decrypt_cases (env : Env) (cfg : Config) (keyFilenames : List Str)
    (h : ¬ (keyFilenames.length = 0 ∧ cfg.password = [] ∧ cfg.sessionKey = [])) :
    (∃ err, (collectVerificationKeys env cfg).2 = .error err ∧
      Decrypt env cfg keyFilenames = ((collectVerificationKeys env cfg).1, .err (decErr err))) ∨
    (∃ pubKeyRing, (collectVerificationKeys env cfg).2 = .ok pubKeyRing ∧
      pairingMismatch cfg pubKeyRing ∧
      Decrypt env cfg keyFilenames = ((collectVerificationKeys env cfg).1, .err .Err23)) ∨
    (∃ pubKeyRing, (collectVerificationKeys env cfg).2 = .ok pubKeyRing ∧
      ¬ pairingMismatch cfg pubKeyRing ∧
      ((∃ err, Decrypt env cfg keyFilenames =
          ((collectVerificationKeys env cfg).1 ++ [.ParseDates cfg.notBefore cfg.notAfter],
            .err (decErr err))) ∨
        (∃ t2 r, resolveSecret env cfg keyFilenames = (t2, .error r) ∧
          Decrypt env cfg keyFilenames =
            ((collectVerificationKeys env cfg).1 ++ [.ParseDates cfg.notBefore cfg.notAfter]
              ++ t2, r)) ∨
        (∃ t2 deferred timeFrom timeTo,
          resolveSecret env cfg keyFilenames = (t2, .ok deferred) ∧
          Decrypt env cfg keyFilenames =
            ((collectVerificationKeys env cfg).1 ++ [.ParseDates cfg.notBefore cfg.notAfter]
              ++ t2 ++ (decryptStream env cfg timeFrom timeTo).1 ++ deferred,
              (decryptStream env cfg timeFrom timeTo).2)))) := by
  rcases hv : collectVerificationKeys env cfg with ⟨t1, r1⟩
  cases r1 with
  | error err => left; exact ⟨err, rfl, by simp only [Decrypt, h, hv, if_false]⟩
  | ok pubKeyRing =>
    right
    by_cases hm : pairingMismatch cfg pubKeyRing
    · left
      refine ⟨pubKeyRing, rfl, hm, ?_⟩
      unfold pairingMismatch at hm
      simp only [Decrypt, h, hv, if_false, hm, if_true]
    · right
      refine ⟨pubKeyRing, rfl, hm, ?_⟩
      unfold pairingMismatch at hm
      cases hpd : env.ParseDates cfg.notBefore cfg.notAfter with
      | error err =>
        left
        exact ⟨err, by simp only [Decrypt, h, hv, if_false, hm, hpd]⟩
      | ok times =>
        obtain ⟨timeFrom, timeTo⟩ := times
        right
        rcases hrs : resolveSecret env cfg keyFilenames with ⟨t2, r2⟩
        cases r2 with
        | error r =>
          left
          exact ⟨t2, r, rfl, by simp only [Decrypt, h, hv, if_false, hm, hpd, hrs]⟩
        | ok deferred =>
          right
          exact ⟨t2, deferred, timeFrom, timeTo, rfl,
            by simp only [Decrypt, h, hv, if_false, hm, hpd, hrs]⟩

theorem resolveSecret_exit (env : Env) (cfg : Config) (keyFilenames : List Str)
    (t2 : List Event) (r : Outcome Unit)
    (h : resolveSecret env cfg keyFilenames = (t2, .error r)) :
    r = .panicked ∨ r = .err .Err67 ∨ ∃ e, r = .err (decErr e) := by
  rcases resolveSecret_cases env cfg keyFilenames with
    ⟨_, ⟨sk, hh⟩ | ⟨e, hh⟩ | hh⟩ | ⟨_, _, ⟨pw, hh⟩ | ⟨e, hh⟩⟩ |
    ⟨_, _, t, _, ⟨e, hh⟩ | ⟨pw, ⟨_, hh⟩ | ⟨_, e, _, hh⟩ | ⟨_, _, hh⟩⟩⟩
  all_goals
    rw [hh] at h
    simp only [Prod.mk.injEq, Except.error.injEq, reduceCtorEq, and_false] at h
  all_goals
    obtain ⟨_, rfl⟩ := h
    simp

/-! ## The command -/

theorem Decrypt_result_of_secret (env : Env) (cfg : Config) (keyFilenames : List Str)
    (h : ¬ (keyFilenames.length = 0 ∧ cfg.password = [] ∧ cfg.sessionKey = [])) :
    (Decrypt env cfg keyFilenames).2 ≠ .err .Err69 ∧
    ((Decrypt env cfg keyFilenames).2 = .err .Err23 →
      (∃ pubKeyRing, (collectVerificationKeys env cfg).2 = .ok pubKeyRing ∧
        pairingMismatch cfg pubKeyRing) ∧
      (Decrypt env cfg keyFilenames).1 = (collectVerificationKeys env cfg).1) := by
  rcases Decrypt_cases env cfg keyFilenames h with
    ⟨err, _, hD⟩ | ⟨ring, hr, hm, hD⟩ | ⟨ring, hr, hm, ⟨err, hD⟩ | ⟨t2, r, hrs, hD⟩ |
      ⟨t2, deferred, timeFrom, timeTo, hrs, hD⟩⟩
  · simp [hD, decErr]
  · simp only [hD, ne_eq, Outcome.err.injEq, reduceCtorEq, not_false_eq_true, true_and]
    exact fun _ => ⟨⟨ring, hr, hm⟩, trivial⟩
  · simp [hD, decErr]
  · rcases resolveSecret_exit env cfg keyFilenames t2 r hrs with rfl | rfl | ⟨e, rfl⟩ <;>
      simp [hD, decErr]
  · rcases (decryptStream_spec env cfg timeFrom timeTo).2.2 with hs | hs | ⟨e, hs⟩ <;>
      simp [hD, hs, decErr]

/-- C5: with no key file, no password reference and no session-key reference,
`Decrypt` returns `Err69` after the one call of `println` (standard error): no
collaborator is called, so nothing is read, collected, or written to standard
output, whatever the other flags are.  `Err69` is returned in no other case. -/
theorem Decrypt_missing_secret (env : Env) (cfg : Config) (keyFilenames : List Str) :
    ((keyFilenames = [] ∧ cfg.password = [] ∧ cfg.sessionKey = []) →
      Decrypt env cfg keyFilenames =
        ([.println "Please provide decryption keys, session key, or passphrase".toList],
          .err .Err69)) ∧
    ((Decrypt env cfg keyFilenames).2 = .err .Err69 ↔
      (keyFilenames = [] ∧ cfg.password = [] ∧ cfg.sessionKey = [])) := by
  have hyes : (keyFilenames = [] ∧ cfg.password = [] ∧ cfg.sessionKey = []) →
      Decrypt env cfg keyFilenames =
        ([.println "Please provide decryption keys, session key, or passphrase".toList],
          .err .Err69) := by
    rintro ⟨h1, h2, h3⟩
    simp only [Decrypt, h1, h2, h3, List.length_nil, and_self, if_true]
  refine ⟨hyes, fun hr => ?_, fun hn => by rw [hyes hn]⟩
  by_contra hn
  have hn2 : ¬ (keyFilenames.length = 0 ∧ cfg.password = [] ∧ cfg.sessionKey = []) := by
    rw [List.length_eq_zero]; exact hn
  exact (Decrypt_result_of_secret env cfg keyFilenames hn2).1 hr

/-- C6, the claim fails, in either reading of `present`.  With the option
`--verify-with` given, key files that hold no key and no output path, `Decrypt`
does not return `Err23` (it decrypts and returns nil); with the option given,
a failing key collection and an output path, no key is there and `Decrypt`
returns `Err99`, not `Err23`. -/
theorem Decrypt_pairing_not_exact :
    (cfgVerifyWith.verifyWith ≠ none ∧ cfgVerifyWith.verificationsOut = [] ∧
      (Decrypt envNoKeys cfgVerifyWith ["k".toList]).2 = .ok ()) ∧
    (envBadKeys.CollectKeys ["v".toList] = .error (.other "bad key".toList) ∧
      cfgVerifyBoth.verificationsOut ≠ [] ∧
      (Decrypt envBadKeys cfgVerifyBoth ["k".toList]).2
        = .err (.Err99 "decrypt".toList (.other "bad key".toList))) := by
  refine ⟨⟨by decide, by decide, by decide⟩, ⟨rfl, by decide, by decide⟩⟩

/-- C6, amended: when a secret source is given, `Decrypt` returns `Err23` exactly
when the verification keys, if the option is given, are collected without error
and either the collected key ring has an entity and the output path is empty, or
the key ring has none (or the option is absent) and the output path is given.
It then has called only the collectors of the verification keys: no date is
parsed, no secret is read, standard input is not read. -/
theorem Decrypt_pairing (env : Env) (cfg : Config) (keyFilenames : List Str)
    (hSecret : ¬ (keyFilenames = [] ∧ cfg.password = [] ∧ cfg.sessionKey = [])) :
    ((Decrypt env cfg keyFilenames).2 = .err .Err23 ↔
      ∃ pubKeyRing, (collectVerificationKeys env cfg).2 = .ok pubKeyRing ∧
        ((cfg.verificationsOut = [] ∧ CountEntities pubKeyRing ≠ 0) ∨
          (cfg.verificationsOut ≠ [] ∧ CountEntities pubKeyRing = 0))) ∧
    ((Decrypt env cfg keyFilenames).2 = .err .Err23 →
      ∀ e ∈ (Decrypt env cfg keyFilenames).1,
        (∃ names, e = .CollectFilesFromCliSlice names) ∨ (∃ files, e = .CollectKeys files) ∨
          (∃ pubKeyRing, e = .VerificationKeys pubKeyRing)) := by
  have hn2 : ¬ (keyFilenames.length = 0 ∧ cfg.password = [] ∧ cfg.sessionKey = []) := by
    rw [List.length_eq_zero]; exact hSecret
  have hres := (Decrypt_result_of_secret env cfg keyFilenames hn2).2
  refine ⟨⟨fun h => (hres h).1, ?_⟩, fun h e he => ?_⟩
  · rintro ⟨ring, hr, hm⟩
    rcases Decrypt_cases env cfg keyFilenames hn2 with
      ⟨err, hr2, _⟩ | ⟨_, _, _, hD⟩ | ⟨ring2, hr2, hm2, _⟩
    · rw [hr] at hr2; simp at hr2
    · rw [hD]
    · rw [hr] at hr2
      have := Except.ok.inj hr2
      subst this
      exact absurd hm hm2
  · rw [(hres h).2] at he
    have hv := collectVerificationKeys_events env cfg e he
    cases e <;> simp [Event.isVerificationSetup] at hv ⊢

/-- Witness of C6 (amended): one verification key and no output path give `Err23`. -/
theorem Decrypt_pairing_witness :
    (Decrypt envOk cfgVerifyWith ["k".toList]).2 = .err .Err23 :=
  (Decrypt_pairing envOk cfgVerifyWith ["k".toList] (by decide)).1.mpr
    ⟨some ⟨["v".toList]⟩, rfl, Or.inl ⟨rfl, by decide⟩⟩

theorem readsStdin_of_isVerificationSetup (e : Event) (h : e.isVerificationSetup = true) :
    e.readsStdin = false := by
  cases e <;> simp [Event.isVerificationSetup] at h <;> rfl

theorem CollectKeysPassword_mem (env : Env) (cfg : Config) (keyFilenames : List Str)
    (pw : Option Str) (files : List Str)
    (hCall : Event.CollectKeysPassword pw files ∈ (Decrypt env cfg keyFilenames).1) :
    files = keyFilenames ∧ cfg.sessionKey = [] ∧ cfg.password = [] ∧
    (((env.CollectKeysPassword pw files).failUnlock = true ∧
        (Decrypt env cfg keyFilenames).2 = .err .Err67 ∧
        ∀ e ∈ (Decrypt env cfg keyFilenames).1, e.readsStdin = false) ∨
      ((env.CollectKeysPassword pw files).failUnlock = false ∧
        ∃ err, (env.CollectKeysPassword pw files).err = some err ∧
          (Decrypt env cfg keyFilenames).2 = .err (decErr err)) ∨
      ((env.CollectKeysPassword pw files).failUnlock = false ∧
        (env.CollectKeysPassword pw files).err = none ∧
        (Decrypt env cfg keyFilenames).1.getLast? =
          some (.ClearPrivateParams (env.CollectKeysPassword pw files).privKeyRing))) := by
  have hnv : Event.CollectKeysPassword pw files ∉ (collectVerificationKeys env cfg).1 := by
    intro hm
    have := collectVerificationKeys_events env cfg _ hm
    simp [Event.isVerificationSetup] at this
  have hns : ∀ a b, Event.CollectKeysPassword pw files ∉ (decryptStream env cfg a b).1 := by
    intro a b hm
    have := (decryptStream_spec env cfg a b).1 _ hm
    simp [Event.isStream] at this
  have hvs : ∀ e ∈ (collectVerificationKeys env cfg).1, e.readsStdin = false :=
    fun e he => readsStdin_of_isVerificationSetup e (collectVerificationKeys_events env cfg e he)
  by_cases hn : keyFilenames.length = 0 ∧ cfg.password = [] ∧ cfg.sessionKey = []
  · simp [Decrypt, hn] at hCall
  · rcases Decrypt_cases env cfg keyFilenames hn with
      ⟨err, _, hD⟩ | ⟨ring, hr, hm, hD⟩ | ⟨ring, hr, hm, ⟨err, hD⟩ | ⟨t2, r, hrs, hD⟩ |
        ⟨t2, deferred, timeFrom, timeTo, hrs, hD⟩⟩
    · rw [hD] at hCall; exact absurd hCall hnv
    · rw [hD] at hCall; exact absurd hCall hnv
    · rw [hD] at hCall; simp [hnv] at hCall
    · rcases resolveSecret_cases env cfg keyFilenames with
        ⟨_, ⟨sk, hh⟩ | ⟨e, hh⟩ | hh⟩ | ⟨_, _, ⟨pw2, hh⟩ | ⟨e, hh⟩⟩ |
        ⟨hsk, hpw, t, ht, ⟨e, hh⟩ | ⟨pw2, ⟨hf, hh⟩ | ⟨hf, e, he, hh⟩ | ⟨hf, he, hh⟩⟩⟩
      all_goals
        rw [hh] at hrs
        simp only [Prod.mk.injEq, Except.error.injEq, reduceCtorEq, and_false] at hrs
      all_goals
        obtain ⟨rfl, rfl⟩ := hrs
        rw [hD] at hCall ⊢
      · simp [hnv] at hCall
      · simp [hnv] at hCall
      · simp [hnv] at hCall
      · rcases ht with rfl | rfl <;> simp [hnv] at hCall
      · have hCall2 : pw = pw2 ∧ files = keyFilenames := by
          rcases ht with rfl | rfl <;> simpa [hnv] using hCall
        obtain ⟨rfl, rfl⟩ := hCall2
        refine ⟨rfl, hsk, hpw, Or.inl ⟨hf, rfl, ?_⟩⟩
        intro e he
        simp only [List.mem_append] at he
        rcases he with (he | he) | he | he
        · exact hvs e he
        · rw [List.mem_singleton.mp he]; rfl
        · rcases ht with rfl | rfl
          · simp at he
          · rw [List.mem_singleton.mp he]; rfl
        · rw [List.mem_singleton.mp he]; rfl
      · have hCall2 : pw = pw2 ∧ files = keyFilenames := by
          rcases ht with rfl | rfl <;> simpa [hnv] using hCall
        obtain ⟨rfl, rfl⟩ := hCall2
        exact ⟨rfl, hsk, hpw, Or.inr (Or.inl ⟨hf, e, he, rfl⟩)⟩
    · rcases resolveSecret_cases env cfg keyFilenames with
        ⟨_, ⟨sk, hh⟩ | ⟨e, hh⟩ | hh⟩ | ⟨_, _, ⟨pw2, hh⟩ | ⟨e, hh⟩⟩ |
        ⟨hsk, hpw, t, ht, ⟨e, hh⟩ | ⟨pw2, ⟨hf, hh⟩ | ⟨hf, e, he, hh⟩ | ⟨hf, he, hh⟩⟩⟩
      all_goals
        rw [hh] at hrs
        simp only [Prod.mk.injEq, Except.ok.injEq, reduceCtorEq, and_false] at hrs
      all_goals
        obtain ⟨rfl, rfl⟩ := hrs
        rw [hD] at hCall ⊢
      · simp [hnv, hns] at hCall
      · simp [hnv, hns] at hCall
      · have hCall2 : pw = pw2 ∧ files = keyFilenames := by
          rcases ht with rfl | rfl <;> simpa [hnv, hns] using hCall
        obtain ⟨rfl, rfl⟩ := hCall2
        exact ⟨rfl, hsk, hpw, Or.inr (Or.inr ⟨hf, he, List.getLast?_concat _⟩)⟩

/-- C8: on the key-ring path, when the key collector is called and reports an
unlock failure, `Decrypt` returns `Err67`, not an `Err99`, also when the collector
hands back an error with the flag, and no call reads standard input. -/
theorem Decrypt_unlock_failure (env : Env) (cfg : Config) (keyFilenames : List Str)
    (pw : Option Str) (files : List Str)
    (hsk : cfg.sessionKey = []) (hpw : cfg.password = [])
    (hCall : Event.CollectKeysPassword pw files ∈ (Decrypt env cfg keyFilenames).1)
    (hFail : (env.CollectKeysPassword pw files).failUnlock = true) :
    (Decrypt env cfg keyFilenames).2 = .err .Err67 ∧
    (∀ source cause, (Decrypt env cfg keyFilenames).2 ≠ .err (.Err99 source cause)) ∧
    ∀ e ∈ (Decrypt env cfg keyFilenames).1, e.readsStdin = false := by
  have _ := hsk
  have _ := hpw
  rcases (CollectKeysPassword_mem env cfg keyFilenames pw files hCall).2.2.2 with
    ⟨_, hr, hs⟩ | ⟨hf, _⟩ | ⟨hf, _⟩
  · refine ⟨hr, fun source cause => ?_, hs⟩
    rw [hr]; simp
  · rw [hf] at hFail; simp at hFail
  · rw [hf] at hFail; simp at hFail

/-- Witness of C8: the second key does not unlock, the collector also hands back an
error, and `Decrypt` returns `Err67`. -/
theorem Decrypt_unlock_failure_witness :
    (Decrypt envLocked cfgEmpty ["k1".toList, "k2".toList]).2 = .err .Err67 :=
  (Decrypt_unlock_failure envLocked cfgEmpty ["k1".toList, "k2".toList] none
    ["k1".toList, "k2".toList] rfl rfl (by decide) rfl).1

/-- C9, the claim fails: when the collector reports an unlock failure after it
unlocked the first key, `Decrypt` returns `Err67`, and when it hands back an error,
`Decrypt` returns `Err99`; in both runs `ClearPrivateParams` is not called. -/
theorem Decrypt_not_scrubbed :
    ((envLocked.CollectKeysPassword none ["k1".toList, "k2".toList]).privKeyRing
        = some ⟨["k1".toList]⟩ ∧
      Decrypt envLocked cfgEmpty ["k1".toList, "k2".toList] =
        ([.ParseDates [] [], .CollectKeysPassword none ["k1".toList, "k2".toList]],
          .err .Err67)) ∧
    ((envFailed.CollectKeysPassword none ["k1".toList, "k2".toList]).privKeyRing
        = some ⟨["k1".toList]⟩ ∧
      Decrypt envFailed cfgEmpty ["k1".toList, "k2".toList] =
        ([.ParseDates [] [], .CollectKeysPassword none ["k1".toList, "k2".toList]],
          .err (.Err99 "decrypt".toList (.other "unreadable key file".toList)))) := by
  refine ⟨⟨rfl, by decide⟩, ⟨rfl, by decide⟩⟩

/-- C9, amended: on the key-ring path, when the key collector is called and hands
back the key ring with no unlock failure and no error, the last call `Decrypt`
makes is `ClearPrivateParams` on that key ring, whatever `Decrypt` returns
afterwards (nil, a decryption error, a write error, a verification error) and
also when it stops with a run-time panic. -/
theorem Decrypt_scrubs (env : Env) (cfg : Config) (keyFilenames : List Str)
    (pw : Option Str) (files : List Str)
    (hCall : Event.CollectKeysPassword pw files ∈ (Decrypt env cfg keyFilenames).1)
    (hUnlocked : (env.CollectKeysPassword pw files).failUnlock = false)
    (hCollected : (env.CollectKeysPassword pw files).err = none) :
    (Decrypt env cfg keyFilenames).1.getLast? =
      some (.ClearPrivateParams (env.CollectKeysPassword pw files).privKeyRing) := by
  rcases (CollectKeysPassword_mem env cfg keyFilenames pw files hCall).2.2.2 with
    ⟨hf, _⟩ | ⟨_, e, he, _⟩ | ⟨_, _, hlast⟩
  · rw [hf] at hUnlocked; simp at hUnlocked
  · rw [he] at hCollected; simp at hCollected
  · exact hlast

/-- Witness of C9 (amended): the copy to standard output fails, `Decrypt` returns
`Err99`, and the key ring is scrubbed last. -/
theorem Decrypt_scrubs_witness :
    (Decrypt { envOk with Copy := some (.other "broken pipe".toList) } cfgEmpty
        ["k".toList]).1.getLast?
      = some (.ClearPrivateParams (some ⟨["k".toList]⟩)) :=
  Decrypt_scrubs { envOk with Copy := some (.other "broken pipe".toList) } cfgEmpty
    ["k".toList] none ["k".toList] (by decide) rfl rfl

theorem not_secret_of_isVerificationSetup (e : Event) (h : e.isVerificationSetup = true) :
    e.isSecret = false ∧ e.secretSource = none := by
  cases e <;> simp [Event.isVerificationSetup] at h <;> exact ⟨rfl, rfl⟩

theorem not_secret_of_isStream (e : Event) (h : e.isStream = true) :
    e.isSecret = false ∧ e.secretSource = none := by
  cases e <;> simp [Event.isStream] at h <;> exact ⟨rfl, rfl⟩

theorem New_mem (env : Env) (cfg : Config) (keyFilenames : List Str)
    (hNew : Event.New ∈ (Decrypt env cfg keyFilenames).1) :
    ¬ (keyFilenames.length = 0 ∧ cfg.password = [] ∧ cfg.sessionKey = []) ∧
    ∃ t1 t2 s1 s2 deferred,
      (Decrypt env cfg keyFilenames).1 =
        t1 ++ [.ParseDates cfg.notBefore cfg.notAfter] ++ t2 ++ (s1 ++ .New :: s2) ++ deferred ∧
      resolveSecret env cfg keyFilenames = (t2, .ok deferred) ∧
      (∀ e ∈ t1, e.isSecret = false ∧ e.secretSource = none) ∧
      (∀ e ∈ s1 ++ .New :: s2, e.isSecret = false ∧ e.secretSource = none) := by
  have hnv : Event.New ∉ (collectVerificationKeys env cfg).1 := by
    intro hm
    have := collectVerificationKeys_events env cfg _ hm
    simp [Event.isVerificationSetup] at this
  by_cases hn : keyFilenames.length = 0 ∧ cfg.password = [] ∧ cfg.sessionKey = []
  · simp [Decrypt, hn] at hNew
  · refine ⟨hn, ?_⟩
    rcases Decrypt_cases env cfg keyFilenames hn with
      ⟨err, _, hD⟩ | ⟨ring, hr, hm, hD⟩ | ⟨ring, hr, hm, ⟨err, hD⟩ | ⟨t2, r, hrs, hD⟩ |
        ⟨t2, deferred, timeFrom, timeTo, hrs, hD⟩⟩
    · rw [hD] at hNew; exact absurd hNew hnv
    · rw [hD] at hNew; exact absurd hNew hnv
    · rw [hD] at hNew; simp [hnv] at hNew
    · exfalso
      rcases resolveSecret_cases env cfg keyFilenames with
        ⟨_, ⟨sk, hh⟩ | ⟨e, hh⟩ | hh⟩ | ⟨_, _, ⟨pw2, hh⟩ | ⟨e, hh⟩⟩ |
        ⟨hsk, hpw, t, ht, ⟨e, hh⟩ | ⟨pw2, ⟨hf, hh⟩ | ⟨hf, e, he, hh⟩ | ⟨hf, he, hh⟩⟩⟩
      all_goals
        rw [hh] at hrs
        simp only [Prod.mk.injEq, Except.error.injEq, reduceCtorEq, and_false] at hrs
      all_goals
        obtain ⟨rfl, rfl⟩ := hrs
        rw [hD] at hNew
      · simp [hnv] at hNew
      · simp [hnv] at hNew
      · simp [hnv] at hNew
      · rcases ht with rfl | rfl <;> simp [hnv] at hNew
      · rcases ht with rfl | rfl <;> simp [hnv] at hNew
      · rcases ht with rfl | rfl <;> simp [hnv] at hNew
    · obtain ⟨s1, s2, hs⟩ := List.append_of_mem (decryptStream_spec env cfg timeFrom timeTo).2.1
      refine ⟨(collectVerificationKeys env cfg).1, t2, s1, s2, deferred, ?_, hrs, ?_, ?_⟩
      · rw [hD, hs]
      · exact fun e he => not_secret_of_isVerificationSetup e
          (collectVerificationKeys_events env cfg e he)
      · rw [← hs]
        exact fun e he => not_secret_of_isStream e
          ((decryptStream_spec env cfg timeFrom timeTo).1 e he)

/-- C7: whenever `Decrypt` reaches `builder.New()`, exactly one of
`builder.SessionKey`, `builder.Password` and `builder.DecryptionKeys` has been
called, before `New`: the session key when a session-key reference is given,
otherwise the password when a password reference is given, otherwise the key ring
collected from the key files, of which there is at least one; and every call that
reads, unlocks, hands over or scrubs a secret is about that one source. -/
theorem Decrypt_one_secret (env : Env) (cfg : Config) (keyFilenames : List Str)
    (hNew : Event.New ∈ (Decrypt env cfg keyFilenames).1) :
    (∀ e ∈ (Decrypt env cfg keyFilenames).1, ∀ s, e.secretSource = some s →
      s = chosenSource cfg) ∧
    ∃ pre post call, (Decrypt env cfg keyFilenames).1 = pre ++ .New :: post ∧ call ∈ pre ∧
      (Decrypt env cfg keyFilenames).1.filter Event.isSecret = [call] ∧
      ((cfg.sessionKey ≠ [] ∧ ∃ sk, call = .SessionKey sk) ∨
        (cfg.sessionKey = [] ∧ cfg.password ≠ [] ∧ ∃ pw, call = .Password pw) ∨
        (cfg.sessionKey = [] ∧ cfg.password = [] ∧ keyFilenames ≠ [] ∧
          ∃ pw, Event.CollectKeysPassword pw keyFilenames ∈ pre ∧
            call = .DecryptionKeys (env.CollectKeysPassword pw keyFilenames).privKeyRing)) := by
  obtain ⟨hn, t1, t2, s1, s2, deferred, hD, hrs, h1, h4⟩ := New_mem env cfg keyFilenames hNew
  have hf1 : t1.filter Event.isSecret = [] :=
    List.filter_eq_nil_iff.mpr (fun e he => by simp [(h1 e he).1])
  have hf4 : (s1 ++ Event.New :: s2).filter Event.isSecret = [] :=
    List.filter_eq_nil_iff.mpr (fun e he => by simp [(h4 e he).1])
  have hs1 : ∀ e ∈ t1, ∀ s, e.secretSource = some s → s = chosenSource cfg := by
    intro e he s hs
    rw [(h1 e he).2] at hs; simp at hs
  have hs4 : ∀ e ∈ s1 ++ Event.New :: s2, ∀ s, e.secretSource = some s →
      s = chosenSource cfg := by
    intro e he s hs
    rw [(h4 e he).2] at hs; simp at hs
  rcases resolveSecret_cases env cfg keyFilenames with
    ⟨hsk, ⟨sk, hh⟩ | ⟨e, hh⟩ | hh⟩ | ⟨hsk, hpw, ⟨pw2, hh⟩ | ⟨e, hh⟩⟩ |
    ⟨hsk, hpw, t, ht, ⟨e, hh⟩ | ⟨pw2, ⟨hf, hh⟩ | ⟨hf, e, he, hh⟩ | ⟨hf, he, hh⟩⟩⟩
  all_goals
    rw [hh] at hrs
    simp only [Prod.mk.injEq, Except.ok.injEq, reduceCtorEq, and_false] at hrs
  all_goals
    obtain ⟨rfl, rfl⟩ := hrs
    rw [hD]
  · refine ⟨?_, t1 ++ [.ParseDates cfg.notBefore cfg.notAfter] ++
      [.ReadFileOrEnv .sessionKey cfg.sessionKey, .SessionKey sk] ++ s1, s2,
      .SessionKey sk, by simp, by simp, ?_, Or.inl ⟨hsk, sk, rfl⟩⟩
    · simp only [List.forall_mem_append]
      refine ⟨⟨⟨⟨hs1, ?_⟩, ?_⟩, List.forall_mem_append.mp hs4⟩, ?_⟩ <;>
        simp [Event.secretSource, chosenSource, hsk]
    · simp only [List.filter_append, hf1, hf4]
      simp [List.filter, Event.isSecret]
  · refine ⟨?_, t1 ++ [.ParseDates cfg.notBefore cfg.notAfter] ++
      [.ReadFileOrEnv .password cfg.password, .Password pw2] ++ s1, s2,
      .Password pw2, by simp, by simp, ?_, Or.inr (Or.inl ⟨hsk, hpw, pw2, rfl⟩)⟩
    · simp only [List.forall_mem_append]
      refine ⟨⟨⟨⟨hs1, ?_⟩, ?_⟩, List.forall_mem_append.mp hs4⟩, ?_⟩ <;>
        simp [Event.secretSource, chosenSource, hsk, hpw]
    · simp only [List.filter_append, hf1, hf4]
      simp [List.filter, Event.isSecret]
  · have hk : keyFilenames ≠ [] := by
      intro hk
      exact hn ⟨by rw [hk]; rfl, hpw, hsk⟩
    refine ⟨?_, t1 ++ [.ParseDates cfg.notBefore cfg.notAfter] ++
      (t ++ [.CollectKeysPassword pw2 keyFilenames,
        .DecryptionKeys (env.CollectKeysPassword pw2 keyFilenames).privKeyRing]) ++ s1,
      s2 ++ [.ClearPrivateParams (env.CollectKeysPassword pw2 keyFilenames).privKeyRing],
      .DecryptionKeys (env.CollectKeysPassword pw2 keyFilenames).privKeyRing,
      by simp, by simp, ?_, Or.inr (Or.inr ⟨hsk, hpw, hk, pw2, by simp, rfl⟩)⟩
    · simp only [List.forall_mem_append]
      refine ⟨⟨⟨⟨hs1, ?_⟩, ⟨?_, ?_⟩⟩, List.forall_mem_append.mp hs4⟩, ?_⟩
      · simp [Event.secretSource]
      · rcases ht with rfl | rfl <;> simp [Event.secretSource, chosenSource, hsk, hpw]
      · simp [Event.secretSource, chosenSource, hsk, hpw]
      · simp [Event.secretSource, chosenSource, hsk, hpw]
    · simp only [List.filter_append, hf1, hf4]
      rcases ht with rfl | rfl <;> simp [List.filter, Event.isSecret]

/-- Witness of C7: with a session-key reference and a password reference both
given, `builder.SessionKey` is the one secret call, made before `New`. -/
theorem Decrypt_one_secret_witness :
    ∃ pre post call,
      (Decrypt envOk { cfgEmpty with sessionKey := "sk".toList, password := "pw".toList }
        ["k".toList]).1 = pre ++ .New :: post ∧ call ∈ pre ∧
      (Decrypt envOk { cfgEmpty with sessionKey := "sk".toList, password := "pw".toList }
        ["k".toList]).1.filter Event.isSecret = [call] ∧
      (("sk".toList ≠ [] ∧ ∃ sk, call = .SessionKey sk) ∨
        ("sk".toList = [] ∧ "pw".toList ≠ [] ∧ ∃ pw, call = .Password pw) ∨
        ("sk".toList = [] ∧ "pw".toList = [] ∧ ["k".toList] ≠ [] ∧
          ∃ pw, Event.CollectKeysPassword pw ["k".toList] ∈ pre ∧
            call = .DecryptionKeys (envOk.CollectKeysPassword pw ["k".toList]).privKeyRing)) :=
  (Decrypt_one_secret envOk { cfgEmpty with sessionKey := "sk".toList, password := "pw".toList }
    ["k".toList] (by decide)).2

end Gosop
